/-
Verification of the Turno fleet-telemetry analysis pipeline
(src/turno_analytics.py, class TurnoDataAnalyzer).

Shallow embedding conventions:
* numeric CSV cells are modelled as `Int` (year/month/day/hour/half-hour) and
  `ℚ` (latitude, longitude, battery charge); pandas floats are embedded as
  exact rationals since no settled property depends on float rounding;
* nullable cells are modelled as `Option`: the vehicle id `vin` and the
  battery charge `avg_bat_charge` are the columns whose null handling the
  pipeline's behaviour depends on (groupby key dropping, median imputation);
* a parsed CSV is a raw row list plus its header (column-name list); the
  derived columns `date` and `time_period` appear in the extended `Row` type,
  absent (`none`) until preprocessing derives them;
* pandas NaN results of bucketing (`pd.cut` values outside all bins) are
  `none`; a pandas scalar that would be NaN (mean/median/std of an empty or
  all-null column) is either `none` or guarded exactly where the source's
  comparison with NaN is always False;
* printing is dropped; values the source only prints but that the spec calls
  "emitted" (the recommendation strings) are returned instead.
-/
import Mathlib

namespace Turno

/-- One parsed CSV record, before preprocessing derives any column.
Field names follow the source's column names. -/
structure RawRow where
  vin : Option String
  yearr : Int
  mmm : Int
  ddd : Int
  hr : Int
  half_hour : Int
  avg_lat : ℚ
  avg_long : ℚ
  avg_bat_charge : Option ℚ
deriving DecidableEq, Repr

/-- A record as held by the analyzer after `preprocess_data`: the raw fields
plus the derived `date` column (absent when derivation was skipped) and the
derived `time_period` column (absent exactly when `pd.cut` yielded NaN). -/
structure Row extends RawRow where
  date : Option (Int × Int × Int)
  time_period : Option String
deriving DecidableEq, Repr

/-- Embeds a freshly parsed record into the analyzer's frame: no derived
columns yet. -/
def rowOfRaw (r : RawRow) : Row := ⟨r, none, none⟩

/-- Source lines 89-92: `pd.cut(self.df['hr'], bins=[0, 6, 12, 18, 24],
labels=['Night', 'Morning', 'Afternoon', 'Evening'], include_lowest=True)`.
`pd.cut` defaults to right-closed intervals, and `include_lowest=True` closes
the first interval on the left as well, so the bins are
[0,6], (6,12], (12,18], (18,24]; values outside them get NaN. -/
def timePeriod (h : Int) : Option String :=
  if h < 0 then none
  else if h ≤ 6 then some "Night"
  else if h ≤ 12 then some "Morning"
  else if h ≤ 18 then some "Afternoon"
  else if h ≤ 24 then some "Evening"
  else none

/-- The four labels of source line 91, in category order. -/
def timePeriodLabels : List String := ["Night", "Morning", "Afternoon", "Evening"]

/-- Source lines 222-225: `pd.cut(self.df['avg_bat_charge'],
bins=[0, 20, 40, 60, 80, 100], labels=['Critical (0-20%)', 'Low (20-40%)',
'Medium (40-60%)', 'Good (60-80%)', 'Full (80-100%)'])`.
No `include_lowest` here, so the bins are the right-closed intervals
(0,20], (20,40], (40,60], (60,80], (80,100]; 0 itself and anything outside
(0,100] gets NaN. -/
def chargeRange (c : ℚ) : Option String :=
  if c ≤ 0 then none
  else if c ≤ 20 then some "Critical (0-20%)"
  else if c ≤ 40 then some "Low (20-40%)"
  else if c ≤ 60 then some "Medium (40-60%)"
  else if c ≤ 80 then some "Good (60-80%)"
  else if c ≤ 100 then some "Full (80-100%)"
  else none

/-- The five labels of source lines 224-225. -/
def chargeRangeLabels : List String :=
  ["Critical (0-20%)", "Low (20-40%)", "Medium (40-60%)", "Good (60-80%)",
   "Full (80-100%)"]

/-- Source line 59: `self.df.drop_duplicates()` — keeps the first occurrence
of each row (full-row equality, pandas default `keep='first'`), preserving
order: the head is kept and every later copy of it is dropped from the
deduplicated tail.  Generic so it also models key deduplication inside
groupby/nunique. -/
def dedupFirst {α : Type} [DecidableEq α] : List α → List α
  | [] => []
  | x :: xs => x :: (dedupFirst xs).filter (fun y => y ≠ x)

/-- The deduplication step of `preprocess_data` (source lines 57-61). -/
def dropDuplicates (rows : List RawRow) : List RawRow := dedupFirst rows

/-- Pandas `Series.median()` over the non-null values: sort, take the middle
element (odd length) or the mean of the two middle elements (even length);
NaN — here `none` — for an empty input. -/
def median (l : List ℚ) : Option ℚ :=
  if l = [] then none
  else
    let s := l.insertionSort (fun a b => a ≤ b)
    some ((s.getD ((s.length - 1) / 2) 0 + s.getD (s.length / 2) 0) / 2)

/-- The non-null battery charges of a raw table (pandas skips NaN when
computing `median`). -/
def nonNullCharges (rows : List RawRow) : List ℚ :=
  rows.filterMap (fun r => r.avg_bat_charge)

/-- One cell of `fillna(median_charge)`: a null battery charge becomes the
fill value, everything else is untouched. -/
def fillRow (m : ℚ) (r : RawRow) : RawRow :=
  match r.avg_bat_charge with
  | none => { r with avg_bat_charge := some m }
  | some _ => r

/-- Source lines 63-74: if any nulls exist and `avg_bat_charge` has nulls,
`self.df['avg_bat_charge'].fillna(median_charge, inplace=True)` with
`median_charge = self.df['avg_bat_charge'].median()`.  When every charge is
null the median is NaN and `fillna(NaN)` changes nothing.  (In our model
nulls can occur only in `vin` and `avg_bat_charge`, so the outer
`missing_data.sum() > 0` guard is subsumed by the inner one.) -/
def fillMissing (rows : List RawRow) : List RawRow :=
  if 0 < rows.countP (fun r => r.avg_bat_charge.isNone) then
    match median (nonNullCharges rows) with
    | some m => rows.map (fillRow m)
    | none => rows
  else rows

/-- Gregorian leap-year rule, as `pd.to_datetime` applies it. -/
def isLeapYear (y : Int) : Bool :=
  (y % 4 == 0 && y % 100 != 0) || (y % 400 == 0)

/-- Days in a month of the Gregorian calendar (months outside 1..12 are
rejected by `isValidDate` before this value matters). -/
def daysInMonth (y m : Int) : Int :=
  if m = 2 then (if isLeapYear y then 29 else 28)
  else if m = 4 ∨ m = 6 ∨ m = 9 ∨ m = 11 then 30
  else 31

/-- Whether `pd.to_datetime` accepts (year, month, day) as a calendar date.
(Pandas additionally bounds the year to the Timestamp range; no claim
depends on that.) -/
def isValidDate (y m d : Int) : Bool :=
  decide (1 ≤ m) && decide (m ≤ 12) && decide (1 ≤ d) &&
    decide (d ≤ daysInMonth y m)

/-- Whether the `pd.to_datetime` call of source lines 79-83 succeeds: it
raises — and the bare `except` of line 85 skips the whole derivation — as
soon as any row is an invalid calendar date. -/
def dateDerivable (rows : List RawRow) : Bool :=
  rows.all (fun r => isValidDate r.yearr r.mmm r.ddd)

/-- Source lines 76-86: the composite-date derivation.  All-or-nothing: if
every row is a valid date, every row gets `date = (yearr, mmm, ddd)`;
otherwise no row gets a date. -/
def deriveDates (rows : List RawRow) : List Row :=
  if dateDerivable rows then
    rows.map (fun r => ⟨r, some (r.yearr, r.mmm, r.ddd), none⟩)
  else rows.map rowOfRaw

/-- Source lines 88-92: derive the `time_period` column from `hr`. -/
def addTimePeriods (rows : List Row) : List Row :=
  rows.map (fun r => { r with time_period := timePeriod r.hr })

/-- Source lines 53-94, `preprocess_data`: deduplicate, median-fill the
battery charge, derive the composite date, derive the time period — in that
order. -/
def preprocess_data (rows : List RawRow) : List Row :=
  addTimePeriods (deriveDates (fillMissing (dropDuplicates rows)))

/-- Pandas `Series.mean()` over exact rationals (NaN for an empty series in
pandas; only consumed on nonempty data here, where the guard `0` value is
never compared). -/
def mean (l : List ℚ) : ℚ := l.sum / l.length

/-- Pandas `Series.std()` squared: the sample variance with `ddof=1`
(denominator n-1).  For fewer than two values pandas yields NaN; we return 0
and embed every NaN comparison of the source as False explicitly. -/
def sampleVariance (l : List ℚ) : ℚ :=
  if l.length < 2 then 0
  else ((l.map (fun x => (x - mean l) ^ 2)).sum) / ((l.length : ℚ) - 1)

/-- The source comparison `battery_std > 25` (line 351), where
`battery_std = df['avg_bat_charge'].std()`.  Embedded without square roots:
for at least two values, `sqrt v > 25 ↔ v > 625` (both sides nonnegative);
for fewer, the std is NaN and `NaN > 25` is False. -/
def batteryStdGt25 (l : List ℚ) : Bool :=
  decide (2 ≤ l.length) && decide ((625 : ℚ) < sampleVariance l)

/-- Pandas `value_counts().idxmax()` over the hour column: the first-appearing
value with the maximal count (`value_counts` keeps first-appearance order for
tied counts and `idxmax` takes the first maximum); `none` only for an empty
column, where the source would raise. -/
def peakHour (hs : List Int) : Option Int :=
  (dedupFirst hs).foldl
    (fun best h =>
      match best with
      | none => some h
      | some b => if hs.count h > hs.count b then some h else best)
    none

/-- Pandas `Series.nunique()` (callers pass the non-null values). -/
def nunique {α : Type} [DecidableEq α] (l : List α) : Nat :=
  (dedupFirst l).length

/-- The non-null battery charges of the analyzer's frame. -/
def chargesOf (rows : List Row) : List ℚ :=
  rows.filterMap (fun r => r.avg_bat_charge)

/-- The distinct vehicle ids in groupby order: pandas `groupby('vin')` drops
null keys and sorts the remaining keys. -/
def vinKeys (rows : List Row) : List String :=
  (dedupFirst (rows.filterMap (fun r => r.vin))).insertionSort (fun a b => a ≤ b)

/-- The distinct hours in groupby order (sorted ascending). -/
def hrKeys (rows : List Row) : List Int :=
  (dedupFirst (rows.map (fun r => r.hr))).insertionSort (fun a b => a ≤ b)

/-- The non-null battery charges of one vehicle's group. -/
def groupCharges (rows : List Row) (k : String) : List ℚ :=
  (rows.filter (fun r => r.vin == some k)).filterMap (fun r => r.avg_bat_charge)

/-- The rows of one hour's group. -/
def hourGroup (rows : List Row) (h : Int) : List Row :=
  rows.filter (fun r => r.hr == h)

/-- Source lines 96-130, `basic_statistics`: the scalar overview values (the
remaining narration of that method only prints these and similar values). -/
structure BasicStats where
  total_records : Nat
  unique_vehicles : Nat
  year_min : Option Int
  year_max : Option Int
  mean_charge : ℚ
  peak_hour : Option Int
deriving DecidableEq, Repr

/-- Source lines 96-130. -/
def basic_statistics (rows : List Row) : BasicStats :=
  ⟨rows.length,
   nunique (rows.filterMap (fun r => r.vin)),
   (rows.map (fun r => r.yearr)).min?,
   (rows.map (fun r => r.yearr)).max?,
   mean (chargesOf rows),
   peakHour (rows.map (fun r => r.hr))⟩

/-- Source lines 132-157, `vehicle_analysis`: per distinct vehicle id, the
mean of its non-null charges and its `count` of non-null charges (pandas
`count` skips NaN).  The std/min/max/mobility columns are aggregates of the
same read-only groups and are not needed by any claim. -/
def vehicle_analysis (rows : List Row) : List (String × ℚ × Nat) :=
  (vinKeys rows).map (fun k =>
    (k, mean (groupCharges rows k), (groupCharges rows k).length))

/-- A loaded table: the header (column names as reported by pandas) plus the
typed rows.  The header is what the source's column-presence checks consult
(`'time_period' in self.df.columns`). -/
structure Frame where
  cols : List String
  rows : List Row
deriving DecidableEq, Repr

/-- Source lines 159-190, `temporal_analysis`: per-hour mean charge and
record count (`'vin': 'count'` counts non-null vins), plus — only when the
`time_period` column exists — the per-period table over the four category
labels (pandas keeps all categories of a categorical groupby). -/
def temporal_analysis (f : Frame) : List (Int × ℚ × Nat) × Option (List (String × ℚ × Nat)) :=
  ((hrKeys f.rows).map (fun h =>
     (h, mean (chargesOf (hourGroup f.rows h)),
      ((hourGroup f.rows h).filterMap (fun r => r.vin)).length)),
   if "time_period" ∈ f.cols then
     some (timePeriodLabels.map (fun p =>
       (p, mean (chargesOf (f.rows.filter (fun r => r.time_period == some p))),
        ((f.rows.filter (fun r => r.time_period == some p)).filterMap
          (fun r => r.vin)).length)))
   else none)

/-- Source lines 198-199: `pd.cut(column, bins=5)` — five equal-width
right-closed intervals from the column minimum to its maximum, the lowest
edge padded down by 0.1% of the range so the minimum itself is included.
Returns the bin index.  (The degenerate all-equal column, which pandas
handles by widening the range, is not modelled: no claim depends on it.) -/
def cut5 (vals : List ℚ) (x : ℚ) : Option (Fin 5) :=
  match vals.min?, vals.max? with
  | some lo, some hi =>
    if lo = hi then none
    else
      let w := (hi - lo) / 5
      if x ≤ lo - (hi - lo) / 1000 then none
      else if x ≤ lo + w then some 0
      else if x ≤ lo + 2 * w then some 1
      else if x ≤ lo + 3 * w then some 2
      else if x ≤ lo + 4 * w then some 3
      else if x ≤ hi then some 4
      else none
  | _, _ => none

/-- The 5×5 geographic cell of one row (lat bin, long bin), `none` when either
coordinate is unbinned — pandas drops such rows from the groupby. -/
def geoCell (rows : List Row) (r : Row) : Option (Fin 5 × Fin 5) :=
  match cut5 (rows.map (fun s => s.avg_lat)) r.avg_lat,
        cut5 (rows.map (fun s => s.avg_long)) r.avg_long with
  | some a, some b => some (a, b)
  | _, _ => none

/-- Source lines 192-214, `geographic_analysis`: record count per occupied
5×5 cell (the printed top-5 and per-cell means are projections of the same
read-only groups). -/
def geographic_analysis (rows : List Row) : List ((Fin 5 × Fin 5) × Nat) :=
  (dedupFirst (rows.filterMap (geoCell rows))).map (fun c =>
    (c, (rows.filter (fun r => geoCell rows r == some c)).length))

/-- Source lines 216-242, `battery_analysis`: the charge-range distribution
(count per bucket label; `value_counts` ordering by descending count is
immaterial to every claim and not modelled) and the mean charge per hour. -/
def battery_analysis (rows : List Row) : List (String × Nat) × List (Int × ℚ) :=
  (chargeRangeLabels.map (fun lab =>
     (lab,
      (rows.filter (fun r => (r.avg_bat_charge.bind chargeRange) == some lab)).length)),
   (hrKeys rows).map (fun h => (h, mean (chargesOf (hourGroup rows h)))))

/-- Source lines 244-320, `create_visualizations`: the data series the six
panels plot.  Panel 6 plots the per-period mean bar chart when the
`time_period` column exists, otherwise the charge-vs-hour scatter. -/
structure VizData where
  charge_hist : List ℚ
  mean_line : ℚ
  hourly_counts : List (Int × Nat)
  battery_by_hour : List (Int × ℚ)
  geo_points : List (ℚ × ℚ × Option ℚ)
  vehicle_counts : List Nat
  period_panel : Option (List (String × ℚ))
deriving DecidableEq, Repr

/-- Source lines 244-320. -/
def create_visualizations (f : Frame) : VizData :=
  ⟨chargesOf f.rows,
   mean (chargesOf f.rows),
   (hrKeys f.rows).map (fun h => (h, (hourGroup f.rows h).length)),
   (hrKeys f.rows).map (fun h => (h, mean (chargesOf (hourGroup f.rows h)))),
   f.rows.map (fun r => (r.avg_long, r.avg_lat, r.avg_bat_charge)),
   (vinKeys f.rows).map (fun k =>
     (f.rows.filter (fun r => r.vin == some k)).length),
   if "time_period" ∈ f.cols then
     some (timePeriodLabels.map (fun p =>
       (p, mean (chargesOf (f.rows.filter (fun r => r.time_period == some p))))))
   else none⟩

/-- Source line 331: `len(self.df[self.df['avg_bat_charge'] < low_battery_threshold])`
with the fixed threshold 30 — null charges compare False. -/
def lowBatteryCount (rows : List Row) : Nat :=
  (rows.filter (fun r =>
    match r.avg_bat_charge with
    | some c => decide (c < 30)
    | none => false)).length

/-- The structured summary returned by `generate_insights` (source lines
367-374).  The source's `battery_std` entry is the sample standard deviation;
we carry its square (`battery_var = battery_std ^ 2`), which determines it,
to stay inside ℚ. -/
structure InsightSummary where
  avg_battery : ℚ
  battery_var : ℚ
  low_battery_records : Nat
  peak_hour : Option Int
  unique_vehicles : Nat
  total_records : Nat
deriving DecidableEq, Repr

/-- The marker of the recommendation block printed at source lines 347-349. -/
def highPriorityMsg : String :=
  "HIGH PRIORITY: implement proactive charging schedule"

/-- The marker of the recommendation block printed at source lines 352-354. -/
def mediumPriorityMsg : String :=
  "MEDIUM PRIORITY: battery usage patterns vary significantly"

/-- Source lines 361-365:
`self.df.groupby('vin')['avg_bat_charge'].mean().sort_values()` — the
per-vehicle mean charge, sorted ascending by value.  The printed extremes
`vehicle_efficiency.index[-1]` / `.index[0]` raise IndexError when the vin
groupby is empty (no row with a non-null vehicle id). -/
def vehicle_efficiency (rows : List Row) : List (String × ℚ) :=
  ((vinKeys rows).map (fun k => (k, mean (groupCharges rows k)))).insertionSort
    (fun a b => a.2 ≤ b.2)

/-- Source lines 322-374, `generate_insights`: computes the scalar metrics,
prints the high-priority block iff `low_battery_records > total_records * 0.1`
and the medium-priority block iff `battery_std > 25` (lines 346-354), walks
the fleet-performance step (lines 361-365), and returns the structured
summary (lines 367-374).  We return the recommendation markers the function
has printed, in emission order, together with the summary — `none` when the
function raises instead of returning:
* line 333 `value_counts().idxmax()` raises on an empty table, before any
  recommendation is printed;
* lines 362-365 `vehicle_efficiency.index[-1]` / `.index[0]` raise when no
  row has a non-null vin — the recommendation prints have already happened,
  but the `return` is never reached. -/
def generate_insights (rows : List Row) : List String × Option InsightSummary :=
  let charges := chargesOf rows
  let avg_battery := mean charges
  let battery_var := sampleVariance charges
  let low_battery_records := lowBatteryCount rows
  match peakHour (rows.map (fun r => r.hr)) with
  | none => ([], none)
  | some peak_hour =>
    let unique_vehicles := nunique (rows.filterMap (fun r => r.vin))
    let total_records := rows.length
    let recs :=
      (if decide ((low_battery_records : ℚ) > (total_records : ℚ) * (1 / 10))
       then [highPriorityMsg] else []) ++
      (if batteryStdGt25 charges then [mediumPriorityMsg] else [])
    match vehicle_efficiency rows with
    | [] => (recs, none)
    | _ :: _ =>
      (recs,
       some ⟨avg_battery, battery_var, low_battery_records, some peak_hour,
         unique_vehicles, total_records⟩)

/-- Source lines 376-404, `export_summary_report`: the two exported tables.
Per vehicle: `total_records` (count of non-null charges) and mean lat/long
(the charge mean/std/min/max columns are projections of the same groups).
Per hour: mean charge, `count` and `nunique` of the non-null vins. -/
def export_summary_report (rows : List Row) :
    List (String × Nat × ℚ × ℚ) × List (Int × ℚ × Nat × Nat) :=
  ((vinKeys rows).map (fun k =>
     (k, (groupCharges rows k).length,
      mean ((rows.filter (fun r => r.vin == some k)).map (fun r => r.avg_lat)),
      mean ((rows.filter (fun r => r.vin == some k)).map (fun r => r.avg_long)))),
   (hrKeys rows).map (fun h =>
     (h, mean (chargesOf (hourGroup rows h)),
      ((hourGroup rows h).filterMap (fun r => r.vin)).length,
      nunique ((hourGroup rows h).filterMap (fun r => r.vin)))))

/-- The 9 required columns of source lines 33-34. -/
def expected_columns : List String :=
  ["vin", "yearr", "mmm", "ddd", "hr", "half_hour", "avg_lat", "avg_long",
   "avg_bat_charge"]

/-- The possible states of the input file as `pd.read_csv` sees them: absent
(raises FileNotFoundError), unparsable (raises a generic exception), or
parsed into a header and typed rows. -/
inductive LoadInput where
  | fileMissing : LoadInput
  | parseFailure : LoadInput
  | parsed : List String → List RawRow → LoadInput
deriving DecidableEq, Repr

/-- The frame produced when `load_data` reaches `preprocess_data`: the
derived columns are appended to the header (`date` only when derivation
succeeded on the deduplicated, filled table) and the rows are preprocessed. -/
def preprocessFrame (cols : List String) (raws : List RawRow) : Frame :=
  let filled := fillMissing (dropDuplicates raws)
  ⟨cols ++ (if dateDerivable filled then ["date"] else []) ++ ["time_period"],
   addTimePeriods (deriveDates filled)⟩

/-- Source lines 19-51, `load_data`: returns the analyzer's `self.df` after
the call together with the boolean result.  Missing file and parse failure
are caught (lines 46-51): `self.df` stays `None` and False is returned.  On
a successful parse `self.df` is assigned FIRST (line 27); only then are the
expected columns checked, so on missing columns the raw frame remains stored
while False is returned (lines 37-40).  With all columns present the frame is
preprocessed and True is returned. -/
def load_data (inp : LoadInput) : Option Frame × Bool :=
  match inp with
  | .fileMissing => (none, false)
  | .parseFailure => (none, false)
  | .parsed cols raws =>
    let missing_columns := expected_columns.filter (fun c => decide (c ∉ cols))
    if missing_columns ≠ [] then (some ⟨cols, raws.map rowOfRaw⟩, false)
    else (some (preprocessFrame cols raws), true)

/-- Everything `run_complete_analysis` computes and exports. -/
structure FullResults where
  basic_stats : BasicStats
  vehicle_stats : List (String × ℚ × Nat)
  temporal_stats : List (Int × ℚ × Nat) × Option (List (String × ℚ × Nat))
  geo_stats : List ((Fin 5 × Fin 5) × Nat)
  battery_stats : List (String × Nat) × List (Int × ℚ)
  viz : VizData
  insights : List String × InsightSummary
  reports : List (String × Nat × ℚ × ℚ) × List (Int × ℚ × Nat × Nat)
deriving DecidableEq, Repr

/-- Source lines 406-446, `run_complete_analysis`: aborts (returns `None`)
exactly when `self.df is None`; otherwise runs every stage over the stored
frame — none of the stages reassigns `self.df`, so the first component (the
frame after the run) equals the input frame in every case.  When the insight
generator raises instead of returning a summary, the exception propagates out
of `run_complete_analysis`: no results dictionary is produced and the export
stage never runs.  (In the source the earliest raise can be in
`basic_statistics`' `idxmax` on an empty table, line 126, or in
`vehicle_analysis`' `idxmax` on an empty vin groupby, line 148; those raise
under exactly the same conditions as the insight generator's two raise
points — empty table, or no non-null vin — so collapsing them into the
insight generator preserves which inputs produce results.)  The stage
functions only read the typed analysis fields; this is faithful whenever the
columns a stage consumes are present (every stage guards its use of
`time_period`; no stage reads `half_hour`). -/
def run_complete_analysis (st : Option Frame) : Option Frame × Option FullResults :=
  match st with
  | none => (none, none)
  | some f =>
    match generate_insights f.rows with
    | (recs, some summary) =>
      (some f,
       some ⟨basic_statistics f.rows, vehicle_analysis f.rows,
         temporal_analysis f, geographic_analysis f.rows,
         battery_analysis f.rows, create_visualizations f, (recs, summary),
         export_summary_report f.rows⟩)
    | (_, none) => (some f, none)

/-! Concrete sample data used by counterexamples and witnesses. -/

/-- A single record whose battery charge is null. -/
def nullRow : RawRow := ⟨some "V1", 2023, 1, 1, 0, 0, 0, 0, none⟩

/-- A record with an out-of-range hour and a null charge (CSV files are not
validated beyond column presence, so such rows reach preprocessing). -/
def oddHourRow : RawRow := ⟨some "V1", 2023, 1, 1, 25, 0, 0, 0, none⟩

/-- Two records that differ only in their battery charge, one null. -/
def dupAfterFillRows : List RawRow :=
  [⟨some "V1", 2023, 1, 1, 0, 0, 0, 0, none⟩,
   ⟨some "V1", 2023, 1, 1, 0, 0, 0, 0, some 50⟩]

/-- A three-record dataset with one null charge among non-null ones. -/
def mixedNullRows : List RawRow :=
  [⟨some "V1", 2023, 1, 1, 1, 0, 0, 0, none⟩,
   ⟨some "V1", 2023, 1, 1, 13, 0, 0, 0, some 40⟩,
   ⟨some "V1", 2023, 1, 1, 20, 1, 0, 0, some 60⟩]

/-- The spec's worked example: three records for vehicle V1 with charges
10, 50, 90 at hours 1, 13, 20. -/
def exampleRows : List RawRow :=
  [⟨some "V1", 2023, 1, 1, 1, 0, 129/10, 777/10, some 10⟩,
   ⟨some "V1", 2023, 1, 2, 13, 0, 13, 78, some 50⟩,
   ⟨some "V1", 2023, 1, 3, 20, 1, 131/10, 779/10, some 90⟩]

/-- A record carrying an invalid calendar date (2023-02-30). -/
def badDateRows : List RawRow :=
  [⟨some "V1", 2023, 2, 30, 5, 0, 0, 0, some 50⟩]

/-- A record with a null vehicle id and a non-null charge. -/
def vinlessRows : List RawRow :=
  [⟨none, 2023, 1, 1, 0, 0, 0, 0, some 50⟩]

/-- A record with a null vehicle id carrying an invalid calendar date
(2023-02-30). -/
def badDateNoVinRows : List RawRow :=
  [⟨none, 2023, 2, 30, 5, 0, 0, 0, some 50⟩]

/-- A parsed file whose header is missing only `half_hour`. -/
def missingColInput : LoadInput :=
  .parsed ["vin", "yearr", "mmm", "ddd", "hr", "avg_lat", "avg_long",
           "avg_bat_charge"]
    [⟨some "V1", 2023, 1, 1, 1, 0, 0, 0, some 50⟩]

/-! Theorems. -/

theorem mem_of_mem_dedupFirst {α : Type} [DecidableEq α] :
    ∀ {l : List α} {a : α}, a ∈ dedupFirst l → a ∈ l := by
  intro l
  induction l with
  | nil => intro a h; simp [dedupFirst] at h
  | cons x xs ih =>
    intro a h
    rw [dedupFirst] at h
    rcases List.mem_cons.mp h with h | h
    · exact h ▸ List.mem_cons_self _ _
    · exact List.mem_cons_of_mem _ (ih (List.mem_of_mem_filter h))

theorem mem_dedupFirst {α : Type} [DecidableEq α] :
    ∀ {l : List α} {a : α}, a ∈ l → a ∈ dedupFirst l := by
  intro l
  induction l with
  | nil => intro a h; simp at h
  | cons x xs ih =>
    intro a h
    rw [dedupFirst]
    by_cases hax : a = x
    · exact hax ▸ List.mem_cons_self _ _
    · rcases List.mem_cons.mp h with h | h
      · exact absurd h hax
      · exact List.mem_cons_of_mem _
          (List.mem_filter.mpr ⟨ih h, by simp [hax]⟩)

theorem not_mem_filter_ne {α : Type} [DecidableEq α] {x : α} {l : List α} :
    x ∉ l.filter (fun y => y ≠ x) := by
  intro h
  simp [List.mem_filter] at h

theorem nodup_dedupFirst {α : Type} [DecidableEq α] :
    ∀ (l : List α), (dedupFirst l).Nodup := by
  intro l
  induction l with
  | nil => simp [dedupFirst]
  | cons x xs ih =>
    rw [dedupFirst]
    exact List.nodup_cons.mpr ⟨not_mem_filter_ne, ih.filter _⟩

theorem dedupFirst_filter_comm {α : Type} [DecidableEq α] (p : α → Bool) :
    ∀ (l : List α), dedupFirst (l.filter p) = (dedupFirst l).filter p := by
  intro l
  induction l with
  | nil => rfl
  | cons x xs ih =>
    by_cases hp : p x
    · rw [List.filter_cons_of_pos hp, dedupFirst, dedupFirst, ih,
        List.filter_cons_of_pos hp]
      congr 1
      simp only [List.filter_filter]
      exact List.filter_congr (fun a _ => by rw [Bool.and_comm])
    · rw [List.filter_cons_of_neg hp, ih, dedupFirst,
        List.filter_cons_of_neg hp, List.filter_filter]
      refine (List.filter_congr (fun a _ => ?_)).symm
      by_cases hax : a = x
      · subst hax; simp [hp]
      · simp [hax]

theorem dedupFirst_idem {α : Type} [DecidableEq α] :
    ∀ (l : List α), dedupFirst (dedupFirst l) = dedupFirst l := by
  intro l
  induction l with
  | nil => rfl
  | cons x xs ih =>
    rw [dedupFirst, dedupFirst, dedupFirst_filter_comm, ih]
    congr 1
    simp only [List.filter_filter]
    exact List.filter_congr (fun a _ => by rw [Bool.and_self])

/-- C6: deduplication is idempotent — applying the exact-duplicate-row
removal twice yields the same rows (hence the same row count) as applying it
once. -/
theorem dropDuplicates_idempotent :
    ∀ (rows : List RawRow),
      dropDuplicates (dropDuplicates rows) = dropDuplicates rows ∧
      (dropDuplicates (dropDuplicates rows)).length =
        (dropDuplicates rows).length := by
  intro rows
  exact ⟨dedupFirst_idem rows, by simp [dropDuplicates, dedupFirst_idem rows]⟩

/-- C1 counterexample: the claim says hour 6 maps to "Morning" (half-open
intervals); the code's right-closed bins map hour 6 to "Night". -/
theorem hour_six_is_night :
    timePeriod 6 = some "Night" ∧ (some "Night" : Option String) ≠ some "Morning" := by
  constructor
  · rfl
  · decide

/-- C1 amended: the code's hour bucketing uses the right-closed intervals
[0,6] Night, (6,12] Morning, (12,18] Afternoon, (18,24] Evening (the first
interval left-closed via include_lowest); hours 0 and 6 map to "Night",
12 to "Morning", 18 to "Afternoon", 23 to "Evening". -/
theorem timePeriod_intervals :
    timePeriod 0 = some "Night" ∧
    timePeriod 6 = some "Night" ∧
    timePeriod 12 = some "Morning" ∧
    timePeriod 18 = some "Afternoon" ∧
    timePeriod 23 = some "Evening" ∧
    (∀ h : Int, timePeriod h = some "Night" ↔ 0 ≤ h ∧ h ≤ 6) ∧
    (∀ h : Int, timePeriod h = some "Morning" ↔ 6 < h ∧ h ≤ 12) ∧
    (∀ h : Int, timePeriod h = some "Afternoon" ↔ 12 < h ∧ h ≤ 18) ∧
    (∀ h : Int, timePeriod h = some "Evening" ↔ 18 < h ∧ h ≤ 24) ∧
    (∀ h : Int, timePeriod h = none ↔ h < 0 ∨ 24 < h) := by
  refine ⟨rfl, rfl, rfl, rfl, rfl, ?_, ?_, ?_, ?_, ?_⟩ <;>
    intro h <;> unfold timePeriod <;> split_ifs <;>
    simp_all <;> omega

/-- C2 counterexample: the claim says charge 0.0 maps to "Critical (0-20%)"
(lowest bin closed at both ends); the code's lowest bin is (0,20], so charge
0.0 falls outside every bin (NaN). -/
theorem charge_zero_unbinned :
    chargeRange 0 = none ∧ (none : Option String) ≠ some "Critical (0-20%)" := by
  constructor
  · rfl
  · decide

/-- C2 amended: the code's battery bucketing uses the right-closed intervals
(0,20], (20,40], (40,60], (60,80], (80,100]; charge 0.0 gets no bucket (NaN),
charge 20.0 maps to "Critical (0-20%)", 20.1 to "Low (20-40%)", and 100.0 to
"Full (80-100%)"; the lowest bin is open on the left and closed on the right. -/
theorem chargeRange_intervals :
    chargeRange 0 = none ∧
    chargeRange 20 = some "Critical (0-20%)" ∧
    chargeRange (201/10) = some "Low (20-40%)" ∧
    chargeRange 100 = some "Full (80-100%)" ∧
    (∀ c : ℚ, chargeRange c = some "Critical (0-20%)" ↔ 0 < c ∧ c ≤ 20) ∧
    (∀ c : ℚ, chargeRange c = some "Low (20-40%)" ↔ 20 < c ∧ c ≤ 40) ∧
    (∀ c : ℚ, chargeRange c = some "Full (80-100%)" ↔ 80 < c ∧ c ≤ 100) ∧
    (∀ c : ℚ, chargeRange c = none ↔ c ≤ 0 ∨ 100 < c) := by
  refine ⟨rfl, by norm_num [chargeRange], by norm_num [chargeRange],
    by norm_num [chargeRange], ?_, ?_, ?_, ?_⟩ <;>
    intro c <;> unfold chargeRange <;> split_ifs <;> simp_all <;>
    first
      | linarith
      | (constructor <;> linarith)
      | (intros <;> linarith)

/-- C5 counterexample: the claim promises zero nulls after the fill step for
EVERY dataset containing nulls, but when every charge is null the median is
NaN and `fillna(NaN)` leaves the nulls in place. -/
theorem fill_all_null_keeps_nulls :
    (∃ r ∈ [nullRow], r.avg_bat_charge = none) ∧
    fillMissing [nullRow] = [nullRow] ∧
    ¬ (∀ r ∈ fillMissing [nullRow], r.avg_bat_charge ≠ none) := by
  refine ⟨by decide, rfl, ?_⟩
  intro hall
  exact hall nullRow (by decide) rfl

/-- C5 amended: for every dataset containing at least one null and at least
one non-null battery charge, the fill step leaves zero nulls, and positionally
each cell that was null now holds the pre-fill median of the non-null values
while every other field (and every non-null charge) is unchanged. -/
theorem fillMissing_spec (rows : List RawRow)
    (h1 : ∃ r ∈ rows, r.avg_bat_charge = none)
    (h2 : ∃ r ∈ rows, r.avg_bat_charge ≠ none) :
    ∃ m, median (nonNullCharges rows) = some m ∧
      (∀ r ∈ fillMissing rows, r.avg_bat_charge ≠ none) ∧
      (∀ (i : Nat) (r0 : RawRow), rows[i]? = some r0 → ∃ r1, (fillMissing rows)[i]? = some r1 ∧
        r1.avg_bat_charge = some (r0.avg_bat_charge.getD m) ∧
        r1.vin = r0.vin ∧ r1.yearr = r0.yearr ∧ r1.mmm = r0.mmm ∧
        r1.ddd = r0.ddd ∧ r1.hr = r0.hr ∧ r1.half_hour = r0.half_hour ∧
        r1.avg_lat = r0.avg_lat ∧ r1.avg_long = r0.avg_long) := by
  obtain ⟨rn, hrn, hbat⟩ := h2
  obtain ⟨c, hc⟩ := Option.ne_none_iff_exists'.mp hbat
  have hmem : c ∈ nonNullCharges rows :=
    List.mem_filterMap.mpr ⟨rn, hrn, hc⟩
  have hne : nonNullCharges rows ≠ [] := List.ne_nil_of_mem hmem
  have hmed : ∃ m, median (nonNullCharges rows) = some m := by
    unfold median
    rw [if_neg hne]
    exact ⟨_, rfl⟩
  obtain ⟨m, hm⟩ := hmed
  have hguard : 0 < rows.countP (fun r => r.avg_bat_charge.isNone) := by
    obtain ⟨r0, hr0, hr0n⟩ := h1
    exact List.countP_pos.mpr ⟨r0, hr0, by simp [hr0n]⟩
  have hfill : fillMissing rows = rows.map (fillRow m) := by
    unfold fillMissing
    rw [if_pos hguard, hm]
  refine ⟨m, hm, ?_, ?_⟩
  · intro r hr
    rw [hfill] at hr
    obtain ⟨r0, _, rfl⟩ := List.mem_map.mp hr
    unfold fillRow
    cases h : r0.avg_bat_charge <;> simp [h]
  · intro i r0 hi
    refine ⟨fillRow m r0, ?_, ?_⟩
    · rw [hfill, List.getElem?_map, hi]; rfl
    · unfold fillRow
      cases h : r0.avg_bat_charge <;> simp [h]

/-- C5 witness: the amended statement at a concrete dataset with one null and
two non-null charges (median 50). -/
theorem fillMissing_spec_witness :
    (∃ r ∈ mixedNullRows, r.avg_bat_charge = none) ∧
    (∃ r ∈ mixedNullRows, r.avg_bat_charge ≠ none) ∧
    ∃ m, median (nonNullCharges mixedNullRows) = some m ∧
      (∀ r ∈ fillMissing mixedNullRows, r.avg_bat_charge ≠ none) ∧
      (∀ (i : Nat) (r0 : RawRow), mixedNullRows[i]? = some r0 →
        ∃ r1, (fillMissing mixedNullRows)[i]? = some r1 ∧
          r1.avg_bat_charge = some (r0.avg_bat_charge.getD m) ∧
          r1.vin = r0.vin ∧ r1.yearr = r0.yearr ∧ r1.mmm = r0.mmm ∧
          r1.ddd = r0.ddd ∧ r1.hr = r0.hr ∧ r1.half_hour = r0.half_hour ∧
          r1.avg_lat = r0.avg_lat ∧ r1.avg_long = r0.avg_long) :=
  ⟨by decide, by decide, fillMissing_spec mixedNullRows (by decide) (by decide)⟩

theorem fillMissing_preserves_fields {l : List RawRow} {r : RawRow}
    (h : r ∈ l) :
    ∃ r1 ∈ fillMissing l, r1.vin = r.vin ∧ r1.yearr = r.yearr ∧
      r1.mmm = r.mmm ∧ r1.ddd = r.ddd := by
  unfold fillMissing
  split
  · split
    · refine ⟨fillRow _ r, List.mem_map_of_mem _ h, ?_⟩
      unfold fillRow
      cases hb : r.avg_bat_charge <;> simp
    · exact ⟨r, h, rfl, rfl, rfl, rfl⟩
  · exact ⟨r, h, rfl, rfl, rfl, rfl⟩

theorem dateDerivable_eq_false {rows : List RawRow}
    (h : ∃ r ∈ rows, isValidDate r.yearr r.mmm r.ddd = false) :
    dateDerivable rows = false := by
  obtain ⟨r, hr, hv⟩ := h
  apply Bool.eq_false_iff.mpr
  intro hall
  have := List.all_eq_true.mp hall r hr
  rw [hv] at this
  exact Bool.false_ne_true this

theorem vin_mem_preprocess {rows : List RawRow} {r : RawRow} (h : r ∈ rows) :
    ∃ r1 ∈ preprocess_data rows, r1.vin = r.vin := by
  have hd : r ∈ dropDuplicates rows := mem_dedupFirst h
  obtain ⟨r2, hr2, hvin2, -, -, -⟩ := fillMissing_preserves_fields hd
  unfold preprocess_data addTimePeriods deriveDates
  split
  · exact ⟨_, List.mem_map_of_mem _ (List.mem_map_of_mem _ hr2), hvin2⟩
  · exact ⟨_, List.mem_map_of_mem _ (List.mem_map_of_mem _ hr2), hvin2⟩

theorem vehicle_efficiency_ne_nil {rows : List Row}
    (hvin : ∃ r ∈ rows, r.vin ≠ none) : vehicle_efficiency rows ≠ [] := by
  obtain ⟨r, hr, hvn⟩ := hvin
  obtain ⟨v, hv⟩ := Option.ne_none_iff_exists'.mp hvn
  have h1 : v ∈ rows.filterMap (fun r => r.vin) :=
    List.mem_filterMap.mpr ⟨r, hr, hv⟩
  have h2 : v ∈ dedupFirst (rows.filterMap (fun r => r.vin)) :=
    mem_dedupFirst h1
  have h3 : v ∈ vinKeys rows := by
    unfold vinKeys
    exact (List.perm_insertionSort _ _).mem_iff.mpr h2
  have h4 : (v, mean (groupCharges rows v)) ∈
      (vinKeys rows).map (fun k => (k, mean (groupCharges rows k))) :=
    List.mem_map_of_mem _ h3
  have h5 : (v, mean (groupCharges rows v)) ∈ vehicle_efficiency rows := by
    unfold vehicle_efficiency
    exact (List.perm_insertionSort _ _).mem_iff.mpr h4
  exact List.ne_nil_of_mem h5

theorem priorityMsgs_ne : highPriorityMsg ≠ mediumPriorityMsg := by decide

theorem foldl_peak_step_isSome (hs : List Int) :
    ∀ (l : List Int) (b : Int),
      (l.foldl (fun best h =>
        match best with
        | none => some h
        | some b => if hs.count h > hs.count b then some h else best)
        (some b)).isSome = true := by
  intro l
  induction l with
  | nil => intro b; rfl
  | cons x t ih =>
    intro b
    simp only [List.foldl_cons]
    split
    · exact ih x
    · exact ih b

theorem peakHour_isSome {hs : List Int} (h : hs ≠ []) :
    (peakHour hs).isSome = true := by
  cases hs with
  | nil => exact absurd rfl h
  | cons x xs =>
    unfold peakHour
    rw [dedupFirst]
    simp only [List.foldl_cons]
    exact foldl_peak_step_isSome _ _ _

theorem generate_insights_eval (rows : List Row) (hne : rows ≠ [])
    (hvin : ∃ r ∈ rows, r.vin ≠ none) :
    generate_insights rows =
      ((if decide ((lowBatteryCount rows : ℚ) > (rows.length : ℚ) * (1 / 10))
        then [highPriorityMsg] else []) ++
       (if batteryStdGt25 (chargesOf rows) then [mediumPriorityMsg] else []),
       some ⟨mean (chargesOf rows), sampleVariance (chargesOf rows),
         lowBatteryCount rows, peakHour (rows.map (fun r => r.hr)),
         nunique (rows.filterMap (fun r => r.vin)), rows.length⟩) := by
  obtain ⟨pk, hpk⟩ := Option.isSome_iff_exists.mp
    (@peakHour_isSome (rows.map (fun r => r.hr)) (by simpa using hne))
  have hve : vehicle_efficiency rows ≠ [] := vehicle_efficiency_ne_nil hvin
  rcases hvec : vehicle_efficiency rows with - | ⟨v0, vt⟩
  · exact absurd hvec hve
  · simp [generate_insights, hpk, hvec]

/-- C7 counterexample: on a dataset with an invalid calendar date AND no
non-null vehicle id, the date derivation is skipped as specified, yet the
claim's "all downstream stages still run" fails — the per-vehicle idxmax and
the fleet-performance index lookups raise on the empty vin groupby, the run
aborts, and the pipeline returns no results.  (The failure is unrelated to
the absent date.) -/
theorem invalid_date_vinless_no_results :
    (∃ r ∈ badDateNoVinRows, isValidDate r.yearr r.mmm r.ddd = false) ∧
    (∀ r ∈ preprocess_data badDateNoVinRows, r.date = none) ∧
    (run_complete_analysis
      (some (preprocessFrame expected_columns badDateNoVinRows))).2 = none := by
  refine ⟨by decide, by decide, rfl⟩

/-- C7 amended: date derivation is all-or-nothing — if any row carries an
invalid calendar date, the derivation step assigns no date to any row (no
per-row fallback) and the date stays absent for the whole preprocessed
table; the skip itself is not a hard failure, and on any such dataset that
also contains a non-null vehicle id the complete analysis still runs and
produces its results (on a dataset with no non-null vehicle id the run fails
downstream for a reason unrelated to the absent date). -/
theorem deriveDates_all_or_nothing (rows : List RawRow)
    (h : ∃ r ∈ rows, isValidDate r.yearr r.mmm r.ddd = false) :
    deriveDates rows = rows.map rowOfRaw ∧
    (∀ r ∈ deriveDates rows, r.date = none) ∧
    (∀ r ∈ preprocess_data rows, r.date = none) ∧
    ((∃ r ∈ rows, r.vin ≠ none) →
      ∀ cols, (run_complete_analysis (some (preprocessFrame cols rows))).2.isSome
        = true) := by
  have hno : dateDerivable rows = false := dateDerivable_eq_false h
  have hstep : deriveDates rows = rows.map rowOfRaw := by
    unfold deriveDates
    rw [hno]
    simp
  refine ⟨hstep, ?_, ?_, ?_⟩
  · intro r hr
    rw [hstep] at hr
    obtain ⟨r0, -, rfl⟩ := List.mem_map.mp hr
    rfl
  · intro r hr
    obtain ⟨r0, hr0, hv0⟩ := h
    have hd : r0 ∈ dropDuplicates rows := mem_dedupFirst hr0
    obtain ⟨r1, hr1, -, hy, hm, hdd⟩ := fillMissing_preserves_fields hd
    have hno2 : dateDerivable (fillMissing (dropDuplicates rows)) = false :=
      dateDerivable_eq_false ⟨r1, hr1, by rw [hy, hm, hdd]; exact hv0⟩
    unfold preprocess_data addTimePeriods at hr
    obtain ⟨r2, hr2, rfl⟩ := List.mem_map.mp hr
    unfold deriveDates at hr2
    rw [hno2] at hr2
    simp only [Bool.false_eq_true, if_false] at hr2
    obtain ⟨r3, -, rfl⟩ := List.mem_map.mp hr2
    rfl
  · intro hvin cols
    obtain ⟨rv, hrv, hvv⟩ := hvin
    obtain ⟨r1, hr1, hveq⟩ := vin_mem_preprocess hrv
    have hne2 : preprocess_data rows ≠ [] := List.ne_nil_of_mem hr1
    have hvin2 : ∃ x ∈ preprocess_data rows, x.vin ≠ none :=
      ⟨r1, hr1, by rw [hveq]; exact hvv⟩
    have heval := generate_insights_eval (preprocess_data rows) hne2 hvin2
    obtain ⟨recs, summ, hgi⟩ : ∃ recs summ,
        generate_insights (preprocessFrame cols rows).rows = (recs, some summ) :=
      ⟨_, _, heval⟩
    simp [run_complete_analysis, hgi]

/-- C7 witness: the theorem applied to a dataset carrying the invalid
calendar date 2023-02-30 and the vehicle id V1, with the inner implication
also discharged. -/
theorem deriveDates_all_or_nothing_witness :
    (∃ r ∈ badDateRows, isValidDate r.yearr r.mmm r.ddd = false) ∧
    (∃ r ∈ badDateRows, r.vin ≠ none) ∧
    (deriveDates badDateRows = badDateRows.map rowOfRaw ∧
     (∀ r ∈ deriveDates badDateRows, r.date = none) ∧
     (∀ r ∈ preprocess_data badDateRows, r.date = none) ∧
     ((∃ r ∈ badDateRows, r.vin ≠ none) →
       ∀ cols, (run_complete_analysis
         (some (preprocessFrame cols badDateRows))).2.isSome = true)) ∧
    (∀ cols, (run_complete_analysis
       (some (preprocessFrame cols badDateRows))).2.isSome = true) :=
  ⟨by decide, by decide, deriveDates_all_or_nothing badDateRows (by decide),
   (deriveDates_all_or_nothing badDateRows (by decide)).2.2.2 (by decide)⟩

/-- C10: `load_data` is total over every input-file state (the missing-file
and parse-failure exceptions are caught and turned into False, so
constructing the analyzer never raises), and it returns True exactly when
the file parses and all 9 required columns are present. -/
theorem load_data_spec (inp : LoadInput) :
    (load_data inp).2 = true ↔
      ∃ cols raws, inp = LoadInput.parsed cols raws ∧
        ∀ c ∈ expected_columns, c ∈ cols := by
  cases inp with
  | fileMissing =>
    simp only [load_data]
    constructor
    · intro h; exact absurd h (by simp)
    · rintro ⟨cols, raws, h, -⟩; exact absurd h (by simp)
  | parseFailure =>
    simp only [load_data]
    constructor
    · intro h; exact absurd h (by simp)
    · rintro ⟨cols, raws, h, -⟩; exact absurd h (by simp)
  | parsed cols raws =>
    simp only [load_data]
    split_ifs with hmiss
    · simp only [ne_eq] at hmiss
      constructor
      · intro h; exact absurd h (by simp)
      · rintro ⟨cols2, raws2, heq, hall⟩
        obtain ⟨rfl, rfl⟩ : cols2 = cols ∧ raws2 = raws := by
          injection heq with h1 h2; exact ⟨h1.symm, h2.symm⟩
        apply hmiss
        apply List.filter_eq_nil_iff.mpr
        intro c hc
        simp [hall c hc]
    · simp only [ne_eq, Decidable.not_not] at hmiss
      constructor
      · intro _
        refine ⟨cols, raws, rfl, fun c hc => ?_⟩
        by_contra habs
        have : c ∈ expected_columns.filter (fun c => decide (c ∉ cols)) :=
          List.mem_filter.mpr ⟨hc, by simp [habs]⟩
        rw [hmiss] at this
        exact absurd this (List.not_mem_nil c)
      · intro _; rfl

/-- C3, code evaluated at the failing input: a file that parses but lacks the
required `half_hour` column makes `load_data` return False, yet — because
`self.df` is assigned before the column check and `run_complete_analysis`
only tests `self.df is None` — the complete analysis still produces all of
its aggregate results and export outputs, contradicting the claim. -/
theorem missing_column_still_produces_outputs :
    (load_data missingColInput).2 = false ∧
    (run_complete_analysis (load_data missingColInput).1).2.isSome = true := by
  constructor
  · decide
  · decide

/-- C8 counterexample: on a nonempty cleaned dataset with no non-null
vehicle id, the fleet-performance step (source lines 362-365) raises
IndexError before the return, so the generator returns no structured summary
even though the dataset is a cleaned dataset — refuting the claim's
unconditional summary return. -/
theorem insights_no_summary_on_vinless :
    (preprocess_data vinlessRows ≠ []) ∧
    (generate_insights (preprocess_data vinlessRows)).2 = none :=
  ⟨by decide, rfl⟩

/-- C8 amended: for every nonempty cleaned dataset, the high-priority
recommendation is emitted iff the count of records with charge below 30
exceeds 10% of the total record count; the medium-priority recommendation is
emitted iff the battery-charge standard deviation exceeds 25 (over the
rationals: at least two charge values and sample variance above 625); a
dataset meeting neither threshold gets no recommendation; and whenever the
dataset also contains a non-null vehicle id (so the fleet-performance step
does not raise), the generator returns the structured summary holding
exactly the computed scalars (mean charge, squared charge stddev,
low-battery count, peak hour, unique-vehicle count, total record count). -/
theorem generate_insights_spec (rows : List Row) (hne : rows ≠ []) :
    (highPriorityMsg ∈ (generate_insights rows).1 ↔
      ((lowBatteryCount rows : ℚ) > (rows.length : ℚ) * (1 / 10))) ∧
    (mediumPriorityMsg ∈ (generate_insights rows).1 ↔
      (2 ≤ (chargesOf rows).length ∧
        (625 : ℚ) < sampleVariance (chargesOf rows))) ∧
    (¬ ((lowBatteryCount rows : ℚ) > (rows.length : ℚ) * (1 / 10)) →
      ¬ (2 ≤ (chargesOf rows).length ∧
          (625 : ℚ) < sampleVariance (chargesOf rows)) →
      (generate_insights rows).1 = []) ∧
    ((∃ r ∈ rows, r.vin ≠ none) →
      (generate_insights rows).2 =
        some ⟨mean (chargesOf rows), sampleVariance (chargesOf rows),
          lowBatteryCount rows, peakHour (rows.map (fun r => r.hr)),
          nunique (rows.filterMap (fun r => r.vin)), rows.length⟩) := by
  obtain ⟨pk, hpk⟩ := Option.isSome_iff_exists.mp
    (@peakHour_isSome (rows.map (fun r => r.hr)) (by simpa using hne))
  have hrecs : (generate_insights rows).1 =
      (if decide ((lowBatteryCount rows : ℚ) > (rows.length : ℚ) * (1 / 10))
       then [highPriorityMsg] else []) ++
      (if batteryStdGt25 (chargesOf rows) then [mediumPriorityMsg] else []) := by
    rcases hvec : vehicle_efficiency rows with - | ⟨v0, vt⟩ <;>
      simp [generate_insights, hpk, hvec]
  refine ⟨?_, ?_, ?_, fun hvin => ?_⟩
  · rw [hrecs]
    by_cases hA : ((lowBatteryCount rows : ℚ) > (rows.length : ℚ) * (1 / 10)) <;>
      cases hBdec : batteryStdGt25 (chargesOf rows) <;>
      simp [hA, hBdec, priorityMsgs_ne, Ne.symm priorityMsgs_ne]
  · rw [hrecs]
    by_cases hA : ((lowBatteryCount rows : ℚ) > (rows.length : ℚ) * (1 / 10)) <;>
      cases hBdec : batteryStdGt25 (chargesOf rows) <;>
      have hB := hBdec <;>
      rw [show batteryStdGt25 (chargesOf rows) =
          decide (2 ≤ (chargesOf rows).length ∧
            (625 : ℚ) < sampleVariance (chargesOf rows)) by
        simp [batteryStdGt25, Bool.decide_and]] at hB <;>
      first
        | (have hB2 := of_decide_eq_true hB
           simp [hA, hBdec, hB2, priorityMsgs_ne, Ne.symm priorityMsgs_ne])
        | (have hB2 := of_decide_eq_false hB
           simp [hA, hBdec, hB2, priorityMsgs_ne, Ne.symm priorityMsgs_ne])
  · intro hA hB
    have hBd : batteryStdGt25 (chargesOf rows) = false := by
      rw [show batteryStdGt25 (chargesOf rows) =
          decide (2 ≤ (chargesOf rows).length ∧
            (625 : ℚ) < sampleVariance (chargesOf rows)) by
        simp [batteryStdGt25, Bool.decide_and]]
      exact decide_eq_false hB
    rw [hrecs, decide_eq_false hA, hBd]
    simp
  · rw [generate_insights_eval rows hne hvin]

/-- C8 witness: the theorem applied to the preprocessed spec example (three
records for vehicle V1 with charges 10, 50, 90: one low-battery record out of
three exceeds 10%, and the sample variance 1600 exceeds 625), with the inner
implication also discharged. -/
theorem generate_insights_spec_witness :
    (preprocess_data exampleRows ≠ []) ∧
    (∃ r ∈ preprocess_data exampleRows, r.vin ≠ none) ∧
    ((highPriorityMsg ∈ (generate_insights (preprocess_data exampleRows)).1 ↔
      ((lowBatteryCount (preprocess_data exampleRows) : ℚ) >
        ((preprocess_data exampleRows).length : ℚ) * (1 / 10))) ∧
    (mediumPriorityMsg ∈ (generate_insights (preprocess_data exampleRows)).1 ↔
      (2 ≤ (chargesOf (preprocess_data exampleRows)).length ∧
        (625 : ℚ) < sampleVariance (chargesOf (preprocess_data exampleRows)))) ∧
    (¬ ((lowBatteryCount (preprocess_data exampleRows) : ℚ) >
        ((preprocess_data exampleRows).length : ℚ) * (1 / 10)) →
      ¬ (2 ≤ (chargesOf (preprocess_data exampleRows)).length ∧
          (625 : ℚ) < sampleVariance (chargesOf (preprocess_data exampleRows))) →
      (generate_insights (preprocess_data exampleRows)).1 = []) ∧
    ((∃ r ∈ preprocess_data exampleRows, r.vin ≠ none) →
      (generate_insights (preprocess_data exampleRows)).2 =
        some ⟨mean (chargesOf (preprocess_data exampleRows)),
          sampleVariance (chargesOf (preprocess_data exampleRows)),
          lowBatteryCount (preprocess_data exampleRows),
          peakHour ((preprocess_data exampleRows).map (fun r => r.hr)),
          nunique ((preprocess_data exampleRows).filterMap (fun r => r.vin)),
          (preprocess_data exampleRows).length⟩)) ∧
    (generate_insights (preprocess_data exampleRows)).2 =
      some ⟨mean (chargesOf (preprocess_data exampleRows)),
        sampleVariance (chargesOf (preprocess_data exampleRows)),
        lowBatteryCount (preprocess_data exampleRows),
        peakHour ((preprocess_data exampleRows).map (fun r => r.hr)),
        nunique ((preprocess_data exampleRows).filterMap (fun r => r.vin)),
        (preprocess_data exampleRows).length⟩ :=
  ⟨by decide, by decide,
   generate_insights_spec (preprocess_data exampleRows) (by decide),
   (generate_insights_spec (preprocess_data exampleRows) (by decide)).2.2.2
     (by decide)⟩

theorem sum_counts_over_keys {α : Type} [DecidableEq α] :
    ∀ (ks : List α) (l : List α), ks.Nodup → (∀ a ∈ l, a ∈ ks) →
      (ks.map (fun k => l.count k)).sum = l.length := by
  intro ks
  induction ks with
  | nil =>
    intro l _ hcov
    have : l = [] := List.eq_nil_iff_forall_not_mem.mpr
      (fun a ha => by simpa using hcov a ha)
    subst this
    rfl
  | cons k kt ih =>
    intro l hnd hcov
    have hknotin : k ∉ kt := (List.nodup_cons.mp hnd).1
    have hndt : kt.Nodup := (List.nodup_cons.mp hnd).2
    have hcov' : ∀ a ∈ l.filter (fun a => a ≠ k), a ∈ kt := by
      intro a ha
      have hal : a ∈ l := List.mem_of_mem_filter ha
      have hak : a ≠ k := by
        have := (List.mem_filter.mp ha).2
        simpa using this
      rcases List.mem_cons.mp (hcov a hal) with h | h
      · exact absurd h hak
      · exact h
    have hcnt : ∀ k2 ∈ kt,
        l.count k2 = (l.filter (fun a => a ≠ k)).count k2 := by
      intro k2 hk2
      have hk2k : k2 ≠ k := fun h => hknotin (h ▸ hk2)
      rw [List.count_filter (by simpa using hk2k)]
    have hsum2 : ((kt.map (fun k2 => l.count k2)).sum =
        (l.filter (fun a => a ≠ k)).length) := by
      rw [List.map_congr_left (fun k2 hk2 => hcnt k2 hk2)]
      exact ih _ hndt hcov'
    have hpart : l.length = l.count k + (l.filter (fun a => a ≠ k)).length := by
      rw [← List.countP_eq_length_filter, List.count_eq_countP,
        List.length_eq_countP_add_countP (fun a => a == k)]
      congr 1
      apply List.countP_congr
      intro a _
      simp [beq_iff_eq]
    simp only [List.map_cons, List.sum_cons, hsum2, hpart]

theorem sum_count_dedupFirst {α : Type} [DecidableEq α] (l : List α) :
    ((dedupFirst l).map (fun k => l.count k)).sum = l.length :=
  sum_counts_over_keys _ _ (nodup_dedupFirst l) (fun _ ha => mem_dedupFirst ha)

theorem filterMap_vin_length (rows : List Row)
    (hv : ∀ r ∈ rows, r.vin ≠ none) :
    (rows.filterMap (fun r => r.vin)).length = rows.length := by
  induction rows with
  | nil => rfl
  | cons r rs ih =>
    obtain ⟨v, hvv⟩ :=
      Option.ne_none_iff_exists'.mp (hv r (List.mem_cons_self _ _))
    have hv' : ∀ x ∈ rs, x.vin ≠ none :=
      fun x hx => hv x (List.mem_cons_of_mem _ hx)
    simp [List.filterMap_cons, hvv, ih hv']

theorem groupCharges_length_eq_count (rows : List Row) (k : String)
    (hv : ∀ r ∈ rows, r.vin ≠ none)
    (hb : ∀ r ∈ rows, r.avg_bat_charge ≠ none) :
    (groupCharges rows k).length = (rows.filterMap (fun r => r.vin)).count k := by
  induction rows with
  | nil => rfl
  | cons r rs ih =>
    have hv' : ∀ x ∈ rs, x.vin ≠ none :=
      fun x hx => hv x (List.mem_cons_of_mem _ hx)
    have hb' : ∀ x ∈ rs, x.avg_bat_charge ≠ none :=
      fun x hx => hb x (List.mem_cons_of_mem _ hx)
    obtain ⟨v, hvv⟩ :=
      Option.ne_none_iff_exists'.mp (hv r (List.mem_cons_self _ _))
    obtain ⟨c, hcc⟩ :=
      Option.ne_none_iff_exists'.mp (hb r (List.mem_cons_self _ _))
    simp only [groupCharges] at ih ⊢
    by_cases hvk : v = k
    · subst hvk
      simp [List.filter_cons, List.filterMap_cons, hvv, hcc,
        ih hv' hb', List.count_cons]
    · simp [List.filter_cons, List.filterMap_cons, hvv,
        ih hv' hb', List.count_cons, hvk]

/-- C9 counterexample: the claim quantifies over every cleaned dataset, but a
row with a null vehicle id survives preprocessing, is dropped by the groupby,
and so the per-vehicle counts sum to 0 while the dataset has 1 row. -/
theorem vehicle_counts_missing_vin :
    ((vehicle_analysis (preprocess_data vinlessRows)).map
      (fun x => x.2.2)).sum = 0 ∧
    (preprocess_data vinlessRows).length = 1 ∧ (0 : Nat) ≠ 1 := by
  refine ⟨by decide, by decide, by decide⟩

/-- C9 amended: for every cleaned dataset in which each row carries a
non-null vehicle id and a non-null battery charge, the per-vehicle record
counts of the vehicle aggregation sum exactly to the total row count, and the
same holds for the per-vehicle summary written by the exporter. -/
theorem vehicle_counts_sum_total (rows : List Row)
    (hv : ∀ r ∈ rows, r.vin ≠ none)
    (hb : ∀ r ∈ rows, r.avg_bat_charge ≠ none) :
    ((vehicle_analysis rows).map (fun x => x.2.2)).sum = rows.length ∧
    ((export_summary_report rows).1.map (fun x => x.2.1)).sum = rows.length := by
  have hperm : List.Perm (vinKeys rows)
      (dedupFirst (rows.filterMap (fun r => r.vin))) :=
    List.perm_insertionSort _ _
  have key : ((vinKeys rows).map (fun k => (groupCharges rows k).length)).sum
      = rows.length := by
    rw [(hperm.map _).sum_eq,
      List.map_congr_left
        (fun k _ => groupCharges_length_eq_count rows k hv hb),
      sum_count_dedupFirst]
    exact filterMap_vin_length rows hv
  constructor
  · rw [vehicle_analysis, List.map_map]
    exact key
  · rw [export_summary_report]
    simp only [List.map_map]
    exact key

/-- C9 witness: the theorem applied to the preprocessed spec example, whose
three rows all carry vehicle id V1 and a charge. -/
theorem vehicle_counts_sum_total_witness :
    (∀ r ∈ preprocess_data exampleRows, r.vin ≠ none) ∧
    (∀ r ∈ preprocess_data exampleRows, r.avg_bat_charge ≠ none) ∧
    (((vehicle_analysis (preprocess_data exampleRows)).map
        (fun x => x.2.2)).sum = (preprocess_data exampleRows).length ∧
     ((export_summary_report (preprocess_data exampleRows)).1.map
        (fun x => x.2.1)).sum = (preprocess_data exampleRows).length) :=
  ⟨by decide, by decide,
   vehicle_counts_sum_total (preprocess_data exampleRows)
     (by decide) (by decide)⟩

theorem fillMissing_of_no_nulls {l : List RawRow}
    (h : ∀ r ∈ l, r.avg_bat_charge ≠ none) : fillMissing l = l := by
  have hcond : ¬ (0 < l.countP (fun r => r.avg_bat_charge.isNone)) := by
    simp only [not_lt, Nat.le_zero]
    apply List.countP_eq_zero.mpr
    intro r hr hnone
    exact h r hr (Option.isNone_iff_eq_none.mp hnone)
  unfold fillMissing
  rw [if_neg hcond]

theorem mem_preprocess {rows : List RawRow} {r : Row}
    (hr : r ∈ preprocess_data rows) :
    ∃ raw ∈ fillMissing (dropDuplicates rows),
      r.toRawRow = raw ∧ r.time_period = timePeriod raw.hr := by
  unfold preprocess_data addTimePeriods at hr
  obtain ⟨r0, hr0, rfl⟩ := List.mem_map.mp hr
  unfold deriveDates at hr0
  split at hr0 <;>
    obtain ⟨raw, hraw, rfl⟩ := List.mem_map.mp hr0 <;>
    exact ⟨raw, hraw, rfl, rfl⟩

theorem tp_none_of_mem_deriveDates {l : List RawRow} {r : Row}
    (h : r ∈ deriveDates l) : r.time_period = none := by
  unfold deriveDates at h
  split at h <;> obtain ⟨raw, _, rfl⟩ := List.mem_map.mp h <;> rfl

theorem nodup_deriveDates {l : List RawRow} (h : l.Nodup) :
    (deriveDates l).Nodup := by
  unfold deriveDates
  split
  · exact List.Nodup.map (fun a b hab => congrArg Row.toRawRow hab) h
  · exact List.Nodup.map (fun a b hab => congrArg Row.toRawRow hab) h

theorem nodup_addTimePeriods {l : List Row}
    (h : l.Nodup) (htp : ∀ r ∈ l, r.time_period = none) :
    (addTimePeriods l).Nodup := by
  unfold addTimePeriods
  apply List.Nodup.map_on ?_ h
  intro a ha b hb hab
  have h1 := congrArg Row.toRawRow hab
  have h2 := congrArg Row.date hab
  have h3 : a.time_period = b.time_period := by rw [htp a ha, htp b hb]
  cases a
  cases b
  simp_all

theorem timePeriod_mem_labels {h : Int} (h0 : 0 ≤ h) (h24 : h ≤ 24) :
    ∃ p ∈ timePeriodLabels, timePeriod h = some p := by
  unfold timePeriod
  split_ifs with a b c d
  · omega
  · exact ⟨"Night", by simp [timePeriodLabels], rfl⟩
  · exact ⟨"Morning", by simp [timePeriodLabels], rfl⟩
  · exact ⟨"Afternoon", by simp [timePeriodLabels], rfl⟩
  · exact ⟨"Evening", by simp [timePeriodLabels], rfl⟩

/-- C4 counterexample: the invariant fails on reachable datasets.  A lone row
with hour 25 and a null charge keeps a null charge (the all-null median is
NaN) and gets no time-period label (25 is outside every bin); and two rows
differing only in one null charge become exact duplicates after the median
fill, so the preprocessed table is not duplicate-free. -/
theorem preprocess_invariant_fails :
    (∃ r ∈ preprocess_data [oddHourRow],
       r.avg_bat_charge = none ∧ r.time_period = none) ∧
    ¬ (preprocess_data dupAfterFillRows).Nodup := by
  constructor
  · decide
  · have h1 : dropDuplicates dupAfterFillRows = dupAfterFillRows := by decide
    have hm : median (nonNullCharges dupAfterFillRows) = some 50 := by
      have hnn : nonNullCharges dupAfterFillRows = [50] := by decide
      rw [hnn]
      unfold median
      rw [if_neg (by decide)]
      norm_num [List.insertionSort, List.orderedInsert]
    have h2 : fillMissing dupAfterFillRows =
        [⟨some "V1", 2023, 1, 1, 0, 0, 0, 0, some 50⟩,
         ⟨some "V1", 2023, 1, 1, 0, 0, 0, 0, some 50⟩] := by
      unfold fillMissing
      rw [if_pos (by decide), hm]
      decide
    have hpre : preprocess_data dupAfterFillRows =
        [⟨⟨some "V1", 2023, 1, 1, 0, 0, 0, 0, some 50⟩,
          some (2023, 1, 1), some "Night"⟩,
         ⟨⟨some "V1", 2023, 1, 1, 0, 0, 0, 0, some 50⟩,
          some (2023, 1, 1), some "Night"⟩] := by
      unfold preprocess_data
      rw [h1, h2]
      decide
    rw [hpre]
    simp

/-- C4 amended: for every input dataset whose hours lie in [0,24] and whose
battery charges are all non-null, the preprocessed dataset contains no
duplicate rows, no null battery charge, and every row carries one of the four
time-period labels; and the complete analysis run leaves the stored frame
unchanged (every aggregator, the visualizer, the insight generator and the
exporter are read-only over it). -/
theorem preprocess_invariant (rows : List RawRow)
    (h1 : ∀ r ∈ rows, 0 ≤ r.hr ∧ r.hr ≤ 24)
    (h2 : ∀ r ∈ rows, r.avg_bat_charge ≠ none) :
    (preprocess_data rows).Nodup ∧
    (∀ r ∈ preprocess_data rows, r.avg_bat_charge ≠ none) ∧
    (∀ r ∈ preprocess_data rows,
       ∃ p ∈ timePeriodLabels, r.time_period = some p) ∧
    (∀ cols, (run_complete_analysis (some ⟨cols, preprocess_data rows⟩)).1
      = some ⟨cols, preprocess_data rows⟩) := by
  have hd2 : ∀ r ∈ dropDuplicates rows, r.avg_bat_charge ≠ none :=
    fun r hr => h2 r (mem_of_mem_dedupFirst hr)
  have hfill : fillMissing (dropDuplicates rows) = dropDuplicates rows :=
    fillMissing_of_no_nulls hd2
  refine ⟨?_, ?_, ?_, ?_⟩
  · unfold preprocess_data
    rw [hfill]
    apply nodup_addTimePeriods
    · exact nodup_deriveDates (nodup_dedupFirst rows)
    · exact fun r hr => tp_none_of_mem_deriveDates hr
  · intro r hr
    obtain ⟨raw, hraw, htoraw, -⟩ := mem_preprocess hr
    rw [hfill] at hraw
    have hbat : r.avg_bat_charge = raw.avg_bat_charge := by rw [htoraw]
    rw [hbat]
    exact hd2 raw hraw
  · intro r hr
    obtain ⟨raw, hraw, -, htp⟩ := mem_preprocess hr
    rw [hfill] at hraw
    have hh := h1 raw (mem_of_mem_dedupFirst hraw)
    rw [htp]
    exact timePeriod_mem_labels hh.1 hh.2
  · intro cols
    rcases hgi : generate_insights (preprocess_data rows) with ⟨recs, osum⟩
    cases osum with
    | none => simp [run_complete_analysis, hgi]
    | some s => simp [run_complete_analysis, hgi]

/-- C4 witness: the theorem applied to the spec's three-row example dataset
(hours 1, 13, 20; charges 10, 50, 90, none null). -/
theorem preprocess_invariant_witness :
    (∀ r ∈ exampleRows, 0 ≤ r.hr ∧ r.hr ≤ 24) ∧
    (∀ r ∈ exampleRows, r.avg_bat_charge ≠ none) ∧
    ((preprocess_data exampleRows).Nodup ∧
     (∀ r ∈ preprocess_data exampleRows, r.avg_bat_charge ≠ none) ∧
     (∀ r ∈ preprocess_data exampleRows,
        ∃ p ∈ timePeriodLabels, r.time_period = some p) ∧
     (∀ cols,
        (run_complete_analysis (some ⟨cols, preprocess_data exampleRows⟩)).1
          = some ⟨cols, preprocess_data exampleRows⟩)) :=
  ⟨by decide, by decide,
   preprocess_invariant exampleRows (by decide) (by decide)⟩

end Turno
